import Mathlib

/-!
Verification of the VoiceInputController
(src/app/javascript/controllers/voice_input_controller.js).

The controller is a Stimulus binding over the browser speech-recognition
engine.  We embed it shallowly: the controller instance becomes a record
`ControllerState`; each method becomes a function on that record.  JS
strings are modelled as `List Char` (concatenation and `substring`
become `++`, `List.take`, `List.drop`).  Calls made on the engine handle
are recorded in a trace field `engineCmds`; `console.error` and
`console.log` output are recorded in `errors` and `logs`.  A method that
dereferences a null handle throws a TypeError in JS; such a method is
embedded as an `Option`-valued function, `none` meaning the throw.
-/

/-- One engine result alternative slot, carrying its finality tag and the
top transcript alternative (`event.results[i][0].transcript`). -/
structure ResultSlot where
  isFinal : Bool
  transcript : List Char
deriving DecidableEq

/-- A SpeechRecognitionEvent: the first-changed index `resultIndex` and
the ordered result slots `results`. -/
structure RecognitionEvent where
  resultIndex : Nat
  results : List ResultSlot
deriving DecidableEq

/-- Configuration of a SpeechRecognition engine handle. -/
structure Engine where
  continuous : Bool
  interimResults : Bool
  lang : List Char
deriving DecidableEq

/-- A freshly constructed engine handle (`new SpeechRecognition()`),
before the controller configures it. -/
def Engine.new : Engine :=
  { continuous := false, interimResults := false, lang := [] }

/-- Commands the controller issues on the engine handle. -/
inductive EngineCmd where
  | start
  | stop
deriving DecidableEq

/-- The binding instance: the engine handle (`this.speechRecognition`,
null when the capability is unavailable), the `this.speaking` flag, the
button label (`startButtonTarget.textContent`), the input element's
value and selection range, and the observable traces. -/
structure ControllerState where
  speechRecognition : Option Engine
  speaking : Bool
  buttonLabel : List Char
  inputValue : List Char
  selStart : Nat
  selEnd : Nat
  engineCmds : List EngineCmd
  errors : List (List Char)
  logs : List (List Char)
deriving DecidableEq

/-- setupSpeechRecognitionProperties: sets continuous, interimResults
and lang on the handle. -/
def setupSpeechRecognitionProperties (speechRecognition : Engine) : Engine :=
  { speechRecognition with
      continuous := true
      interimResults := true
      lang := "en-US".toList }

/-- getSpeechRecognition: when the browser capability is absent, logs an
error and returns null; otherwise constructs and configures a handle.
Returns the handle together with the `console.error` lines emitted.
(setupSpeechRecognitionCallbacks only installs the four callbacks, which
are embedded below as the handler functions; it does not change the
handle's configuration.) -/
def getSpeechRecognition (available : Bool) : Option Engine × List (List Char) :=
  if available then
    (some (setupSpeechRecognitionProperties Engine.new), [])
  else
    (none, ["Speech recognition not supported in this browser".toList])

/-- connect: logs, acquires the engine handle once, and clears the
speaking flag. `available` models whether `window.SpeechRecognition`
(or the webkit variant) exists. -/
def connect (available : Bool) (s : ControllerState) : ControllerState :=
  let acquired := getSpeechRecognition available
  { s with
      logs := s.logs ++ ["VoiceInputController connected".toList]
      errors := s.errors ++ acquired.2
      speechRecognition := acquired.1
      speaking := false }

/-- stopRecording: calls `this.speechRecognition.stop()` (a TypeError,
embedded as `none`, when the handle is null), then clears the speaking
flag and logs. -/
def stopRecording (s : ControllerState) : Option ControllerState :=
  match s.speechRecognition with
  | none => none
  | some _ =>
      some { s with
               engineCmds := s.engineCmds ++ [EngineCmd.stop]
               speaking := false
               logs := s.logs ++ ["Stop recording".toList] }

/-- startRecording: calls `this.speechRecognition.start()` (a TypeError,
embedded as `none`, when the handle is null), then sets the speaking
flag and logs. -/
def startRecording (s : ControllerState) : Option ControllerState :=
  match s.speechRecognition with
  | none => none
  | some _ =>
      some { s with
               engineCmds := s.engineCmds ++ [EngineCmd.start]
               speaking := true
               logs := s.logs ++ ["Start recording".toList] }

/-- record: the button-click toggle.  With a null handle it reports an
error and returns.  Otherwise it stops or starts recording according to
the speaking flag and then sets the button label.  (The guarded
stop/startRecording calls always succeed here, so the `getD` fallback is
never taken.) -/
def record (s : ControllerState) : ControllerState :=
  match s.speechRecognition with
  | none =>
      { s with errors := s.errors ++ ["Speech recognition is not available".toList] }
  | some _ =>
      if s.speaking then
        ((stopRecording s).map
          (fun s1 => { s1 with buttonLabel := "Start Voice Input".toList })).getD s
      else
        ((startRecording s).map
          (fun s1 => { s1 with buttonLabel := "Stop Voice Input".toList })).getD s

/-- handleSpeechRecognitionError: logs the error, then calls
stopRecording (which would throw on a null handle; the handler is only
ever installed on a real handle). -/
def handleSpeechRecognitionError (err : List Char) (s : ControllerState) :
    Option ControllerState :=
  stopRecording { s with errors := s.errors ++ ["Speech recognition error:".toList ++ err] }

/-- The arrow function installed as `onstart`: logs only. -/
def handleStart (s : ControllerState) : ControllerState :=
  { s with logs := s.logs ++ ["Recording started...".toList] }

/-- The arrow function installed as `onend`: logs only. -/
def handleEnd (s : ControllerState) : ControllerState :=
  { s with logs := s.logs ++ ["Recording stopped...".toList] }

/-- extractTranscripts: folds over the result slots from `resultIndex`
to the end, appending each slot's top transcript to the final or the
interim accumulator according to its finality tag.  Returns
(finalTranscript, interimTranscript). -/
def extractTranscripts (event : RecognitionEvent) : List Char × List Char :=
  (event.results.drop event.resultIndex).foldl
    (fun acc r =>
      if r.isFinal then (acc.1 ++ r.transcript, acc.2)
      else (acc.1, acc.2 ++ r.transcript))
    ([], [])

/-- updateInputValue: splices the final transcript over the selection,
collapses the caret after it, then widens the selection by the interim
transcript's length (`setSelectionRange`). -/
def updateInputValue (finalTranscript interimTranscript : List Char)
    (s : ControllerState) : ControllerState :=
  let beforeSelection := s.inputValue.take s.selStart
  let afterSelection := s.inputValue.drop s.selEnd
  let updatedValue := beforeSelection ++ finalTranscript ++ afterSelection
  let updatedSelectionStart := s.selStart + finalTranscript.length
  let updatedSelectionEnd := updatedSelectionStart + interimTranscript.length
  { s with
      inputValue := updatedValue
      selStart := updatedSelectionStart
      selEnd := updatedSelectionEnd }

/-- handleSpeechRecognitionResult: extracts the transcripts and applies
them to the input. -/
def handleSpeechRecognitionResult (event : RecognitionEvent)
    (s : ControllerState) : ControllerState :=
  let t := extractTranscripts event
  updateInputValue t.1 t.2 s

/-- One externally delivered event: a button click, a direct method
call, or one of the engine callbacks. -/
inductive Step where
  | click
  | startRec
  | stopRec
  | error (msg : List Char)
  | result (event : RecognitionEvent)
  | engineStart
  | engineEnd
deriving DecidableEq

/-- Apply one step; `none` models a thrown exception. -/
def applyStep : Step → ControllerState → Option ControllerState
  | Step.click, s => some (record s)
  | Step.startRec, s => startRecording s
  | Step.stopRec, s => stopRecording s
  | Step.error msg, s => handleSpeechRecognitionError msg s
  | Step.result event, s => some (handleSpeechRecognitionResult event s)
  | Step.engineStart, s => some (handleStart s)
  | Step.engineEnd, s => some (handleEnd s)

/-- Apply a sequence of steps; a throw aborts the rest. -/
def applySteps : List Step → ControllerState → Option ControllerState
  | [], s => some s
  | st :: rest, s => (applyStep st s).bind (applySteps rest)

/-- Spec-side description of the final transcript: the concatenation, in
slot order from `resultIndex` on, of the top transcripts of the slots
marked final. -/
def specFinalTranscript (event : RecognitionEvent) : List Char :=
  (((event.results.drop event.resultIndex).filter (fun r => r.isFinal)).map
    (fun r => r.transcript)).flatten

/-- Spec-side description of the interim transcript: the concatenation,
in slot order from `resultIndex` on, of the top transcripts of the slots
not marked final. -/
def specInterimTranscript (event : RecognitionEvent) : List Char :=
  (((event.results.drop event.resultIndex).filter (fun r => !r.isFinal)).map
    (fun r => r.transcript)).flatten

/-- A controller state before connect, used for concrete witnesses. -/
def initState : ControllerState :=
  { speechRecognition := none
    speaking := false
    buttonLabel := "Start Voice Input".toList
    inputValue := []
    selStart := 0
    selEnd := 0
    engineCmds := []
    errors := []
    logs := [] }

/-- An idle state holding a configured engine handle. -/
def idleEngineState : ControllerState :=
  { initState with
      speechRecognition := some (setupSpeechRecognitionProperties Engine.new) }

/-- A recording state: engine handle present, speaking, button showing
the stop label. -/
def recordingState : ControllerState :=
  { idleEngineState with
      speaking := true
      buttonLabel := "Stop Voice Input".toList }

/-- The spec's worked example: input "hello world", caret after
"hello". -/
def helloState : ControllerState :=
  { idleEngineState with
      inputValue := "hello world".toList
      selStart := 5
      selEnd := 5 }

/-- A state with a non-collapsed selection [1,3) over "abcde". -/
def abcdeState : ControllerState :=
  { idleEngineState with
      inputValue := "abcde".toList
      selStart := 1
      selEnd := 3 }

/-- A recognition event whose resultIndex is past the end of its
results, so both extracted transcripts are empty. -/
def pastEndEvent : RecognitionEvent :=
  { resultIndex := 2, results := [{ isFinal := true, transcript := "x".toList }] }

/-! Helper lemmas. -/

/-- The transcript fold, started from arbitrary accumulators, appends
the filtered-and-flattened final and interim transcripts. -/
theorem extractTranscripts_foldl (l : List ResultSlot) (f i : List Char) :
    l.foldl
      (fun acc r =>
        if r.isFinal then (acc.1 ++ r.transcript, acc.2)
        else (acc.1, acc.2 ++ r.transcript))
      (f, i)
    = (f ++ ((l.filter fun r => r.isFinal).map fun r => r.transcript).flatten,
       i ++ ((l.filter fun r => !r.isFinal).map fun r => r.transcript).flatten) := by
  induction l generalizing f i with
  | nil => simp
  | cons r rs ih =>
    cases hf : r.isFinal <;> simp [List.foldl_cons, hf, ih, List.append_assoc]

/-- Any single step that completes leaves the engine handle unchanged. -/
theorem applyStep_preserves_handle (st : Step) (s s' : ControllerState)
    (h : applyStep st s = some s') : s'.speechRecognition = s.speechRecognition := by
  cases s with
  | mk sr sp bl iv ss se ec er lg =>
    cases st <;> cases sr <;> cases sp <;>
      simp_all [applyStep, record, startRecording, stopRecording,
        handleSpeechRecognitionError, handleSpeechRecognitionResult,
        updateInputValue, handleStart, handleEnd] <;>
      rw [← h]

/-- Any step sequence that completes leaves the engine handle
unchanged. -/
theorem applySteps_preserve_handle (steps : List Step) (s s' : ControllerState)
    (h : applySteps steps s = some s') : s'.speechRecognition = s.speechRecognition := by
  induction steps generalizing s with
  | nil =>
      simp [applySteps] at h
      rw [← h]
  | cons st rest ih =>
      simp only [applySteps, Option.bind_eq_some] at h
      obtain ⟨s1, h1, h2⟩ := h
      rw [ih s1 h2, applyStep_preserves_handle st s s1 h1]

/-! Claim theorems. -/

/-- C4: extractTranscripts returns, as finalTranscript, the slot-order
concatenation of the top transcripts of the final-marked slots from
resultIndex to the end, and, as interimTranscript, the same for the
slots not marked final. -/
theorem extractTranscripts_eq_spec (event : RecognitionEvent) :
    extractTranscripts event
      = (specFinalTranscript event, specInterimTranscript event) := by
  unfold extractTranscripts specFinalTranscript specInterimTranscript
  simpa using
    extractTranscripts_foldl (event.results.drop event.resultIndex) [] []

/-- C2: updateInputValue sets the input's text to
text[0:start] ++ finalText ++ text[end:] and the selection to
[start + |finalText|, start + |finalText| + |interimText|], for any
selection with 0 <= start <= end <= |text|. -/
theorem updateInputValue_splices (s : ControllerState)
    (finalTranscript interimTranscript : List Char)
    (hse : s.selStart ≤ s.selEnd) (hlen : s.selEnd ≤ s.inputValue.length) :
    (updateInputValue finalTranscript interimTranscript s).inputValue
      = s.inputValue.take s.selStart ++ finalTranscript ++ s.inputValue.drop s.selEnd
    ∧ (updateInputValue finalTranscript interimTranscript s).selStart
      = s.selStart + finalTranscript.length
    ∧ (updateInputValue finalTranscript interimTranscript s).selEnd
      = s.selStart + finalTranscript.length + interimTranscript.length := by
  refine ⟨?_, rfl, rfl⟩
  simp [updateInputValue, List.append_assoc]

/-- Witness for C2 at the spec's worked example: "hello world",
selection [5,5], finalText " there" gives "hello there world" with the
caret collapsed at offset 11. -/
theorem updateInputValue_splices_witness :
    (updateInputValue " there".toList [] helloState).inputValue
      = "hello there world".toList
    ∧ (updateInputValue " there".toList [] helloState).selStart = 11
    ∧ (updateInputValue " there".toList [] helloState).selEnd = 11 := by
  have h :=
    updateInputValue_splices helloState " there".toList [] (by decide) (by decide)
  refine ⟨?_, ?_, ?_⟩
  · rw [h.1]; decide
  · rw [h.2.1]; decide
  · rw [h.2.2]; decide

/-- C1 counterexample: with a null engine handle, a direct call to
startRecording or stopRecording dereferences the null handle and throws
(embedded as `none`) instead of being a no-op that reports and
returns. -/
theorem startStopRecording_throw_on_null :
    startRecording initState = none ∧ stopRecording initState = none :=
  ⟨rfl, rfl⟩

/-- C1 (amended): with a null engine handle, record() is a no-op apart
from reporting the unavailability error and never throws, while
startRecording() and stopRecording() are unguarded there and throw a
null-dereference error when called directly. -/
theorem record_noop_on_null (s : ControllerState)
    (h : s.speechRecognition = none) :
    record s
      = { s with errors := s.errors ++ ["Speech recognition is not available".toList] }
    ∧ startRecording s = none ∧ stopRecording s = none := by
  unfold record startRecording stopRecording
  rw [h]
  exact ⟨rfl, rfl, rfl⟩

/-- Witness for C1 (amended) at a concrete null-handle state. -/
theorem record_noop_on_null_witness :
    record initState
      = { initState with errors := ["Speech recognition is not available".toList] }
    ∧ startRecording initState = none ∧ stopRecording initState = none := by
  have h := record_noop_on_null initState rfl
  exact h

/-- C3 counterexample: an engine error arriving in the Recording state
(button label "Stop Voice Input") stops recording but leaves the label
"Stop Voice Input"; it does not revert to "Start Voice Input". -/
theorem error_label_not_reverted :
    (handleSpeechRecognitionError "network".toList recordingState).map
        ControllerState.buttonLabel
      = some "Stop Voice Input".toList
    ∧ (handleSpeechRecognitionError "network".toList recordingState).map
        ControllerState.buttonLabel
      ≠ some "Start Voice Input".toList := by
  exact ⟨rfl, by decide⟩

/-- C3 (amended): on every engine-reported error with an engine handle
present, recording stops (the speaking flag becomes false) but the
button label is left unchanged; in particular it does not revert to
"Start Voice Input" when it showed "Stop Voice Input". -/
theorem handleError_stops_keeps_label (err : List Char) (s : ControllerState)
    (eng : Engine) (h : s.speechRecognition = some eng) :
    (handleSpeechRecognitionError err s).map
        (fun s1 => (s1.speaking, s1.buttonLabel))
      = some (false, s.buttonLabel) := by
  unfold handleSpeechRecognitionError stopRecording
  simp only [h]
  rfl

/-- Witness for C3 (amended) at a concrete recording state. -/
theorem handleError_stops_keeps_label_witness :
    (handleSpeechRecognitionError "network".toList recordingState).map
        (fun s1 => (s1.speaking, s1.buttonLabel))
      = some (false, recordingState.buttonLabel) :=
  handleError_stops_keeps_label "network".toList recordingState
    (setupSpeechRecognitionProperties Engine.new) rfl

/-- C5: for every prior state with an engine handle (speaking true or
false), the error handler leaves the speaking flag false. -/
theorem handleError_forces_idle (err : List Char) (s : ControllerState)
    (eng : Engine) (h : s.speechRecognition = some eng) :
    (handleSpeechRecognitionError err s).map ControllerState.speaking
      = some false := by
  unfold handleSpeechRecognitionError stopRecording
  simp only [h]
  rfl

/-- Witness for C5 at both prior states: Recording and Idle. -/
theorem handleError_forces_idle_witness :
    (handleSpeechRecognitionError "no-speech".toList recordingState).map
        ControllerState.speaking
      = some false
    ∧ (handleSpeechRecognitionError "no-speech".toList idleEngineState).map
        ControllerState.speaking
      = some false :=
  ⟨handleError_forces_idle "no-speech".toList recordingState
      (setupSpeechRecognitionProperties Engine.new) rfl,
   handleError_forces_idle "no-speech".toList idleEngineState
      (setupSpeechRecognitionProperties Engine.new) rfl⟩

/-- C6: with an engine handle present and the button label consistent
with the speaking flag, clicking the button twice with no intervening
events restores both the speaking flag and the button label, from
either starting state. -/
theorem record_twice_restores (s : ControllerState) (eng : Engine)
    (h : s.speechRecognition = some eng)
    (hlabel : s.buttonLabel
      = if s.speaking then "Stop Voice Input".toList
        else "Start Voice Input".toList) :
    (record (record s)).speaking = s.speaking
    ∧ (record (record s)).buttonLabel = s.buttonLabel := by
  cases hsp : s.speaking <;>
    simp_all [record, startRecording, stopRecording]

/-- Witness for C6 at the idle state with a handle. -/
theorem record_twice_restores_witness :
    (record (record idleEngineState)).speaking = idleEngineState.speaking
    ∧ (record (record idleEngineState)).buttonLabel
        = idleEngineState.buttonLabel :=
  record_twice_restores idleEngineState
    (setupSpeechRecognitionProperties Engine.new) rfl (by decide)

/-- C7: the engine handle is the one acquired at connect, and no
completed sequence of clicks, direct start/stop calls, or engine events
ever replaces it. -/
theorem handle_created_once (available : Bool) (s : ControllerState)
    (steps : List Step) (s' : ControllerState)
    (h : applySteps steps (connect available s) = some s') :
    s'.speechRecognition = (getSpeechRecognition available).1 := by
  rw [applySteps_preserve_handle steps (connect available s) s' h]
  rfl

/-- Witness for C7: one click after connect keeps the acquired
handle. -/
theorem handle_created_once_witness :
    (record (connect true initState)).speechRecognition
      = (getSpeechRecognition true).1 :=
  handle_created_once true initState [Step.click]
    (record (connect true initState)) rfl

/-- C8: the onend handler changes no binding state observed by the
claim: speaking flag, engine handle, input text, selection, button
label, engine commands and reported errors are all unchanged. -/
theorem handleEnd_frame (s : ControllerState) :
    (handleEnd s).speaking = s.speaking
    ∧ (handleEnd s).speechRecognition = s.speechRecognition
    ∧ (handleEnd s).inputValue = s.inputValue
    ∧ (handleEnd s).selStart = s.selStart
    ∧ (handleEnd s).selEnd = s.selEnd
    ∧ (handleEnd s).buttonLabel = s.buttonLabel
    ∧ (handleEnd s).engineCmds = s.engineCmds
    ∧ (handleEnd s).errors = s.errors :=
  ⟨rfl, rfl, rfl, rfl, rfl, rfl, rfl, rfl⟩

/-- C9: connect sets the speaking flag to false, and any engine handle
it acquires is configured with continuous = true, interimResults = true
and lang = "en-US". -/
theorem connect_configures (available : Bool) (s : ControllerState) :
    (connect available s).speaking = false
    ∧ ∀ eng : Engine, (connect available s).speechRecognition = some eng →
        eng.continuous = true ∧ eng.interimResults = true
          ∧ eng.lang = "en-US".toList := by
  refine ⟨rfl, ?_⟩
  intro eng h
  cases available with
  | false =>
      have h2 : (none : Option Engine) = some eng := h
      exact Option.noConfusion h2
  | true =>
      have h2 : some (setupSpeechRecognitionProperties Engine.new) = some eng := h
      cases h2
      exact ⟨rfl, rfl, rfl⟩

/-- Witness for C9 at a concrete connect with the capability
available. -/
theorem connect_configures_witness :
    (connect true initState).speaking = false
    ∧ (setupSpeechRecognitionProperties Engine.new).continuous = true
    ∧ (setupSpeechRecognitionProperties Engine.new).interimResults = true
    ∧ (setupSpeechRecognitionProperties Engine.new).lang = "en-US".toList :=
  ⟨(connect_configures true initState).1,
   (connect_configures true initState).2
     (setupSpeechRecognitionProperties Engine.new) rfl⟩

/-- C10: a result event whose extracted transcripts are both empty
still rewrites the input: a non-collapsed selection [start, end) has
its text deleted and the selection collapses to start, so the input
does not stay unchanged. -/
theorem empty_transcripts_still_rewrite (event : RecognitionEvent)
    (s : ControllerState) (hE : extractTranscripts event = ([], []))
    (hlt : s.selStart < s.selEnd) (hlen : s.selEnd ≤ s.inputValue.length) :
    (handleSpeechRecognitionResult event s).inputValue
      = s.inputValue.take s.selStart ++ s.inputValue.drop s.selEnd
    ∧ (handleSpeechRecognitionResult event s).selStart = s.selStart
    ∧ (handleSpeechRecognitionResult event s).selEnd = s.selStart
    ∧ (handleSpeechRecognitionResult event s).inputValue ≠ s.inputValue := by
  have hmain : handleSpeechRecognitionResult event s
      = updateInputValue [] [] s := by
    simp only [handleSpeechRecognitionResult, hE]
  rw [hmain]
  refine ⟨by simp [updateInputValue], by simp [updateInputValue],
    by simp [updateInputValue], ?_⟩
  intro hEq
  have hlenEq := congrArg List.length hEq
  simp [updateInputValue, List.length_take, List.length_drop] at hlenEq
  omega

/-- Witness for C10: an out-of-range event on "abcde" with selection
[1,3) deletes "bc" and collapses the selection to 1. -/
theorem empty_transcripts_still_rewrite_witness :
    (handleSpeechRecognitionResult pastEndEvent abcdeState).inputValue
      = "ade".toList
    ∧ (handleSpeechRecognitionResult pastEndEvent abcdeState).selStart = 1
    ∧ (handleSpeechRecognitionResult pastEndEvent abcdeState).selEnd = 1
    ∧ (handleSpeechRecognitionResult pastEndEvent abcdeState).inputValue
        ≠ "abcde".toList := by
  have h := empty_transcripts_still_rewrite pastEndEvent abcdeState
    (by decide) (by decide) (by decide)
  refine ⟨?_, ?_, ?_, ?_⟩
  · rw [h.1]; decide
  · rw [h.2.1]; decide
  · rw [h.2.2.1]; decide
  · exact h.2.2.2
